import Mathlib

/-!
Verification of the undux store core (src/node_modules/undux/src/index.ts).

The state of a store is a JavaScript object mapping field names to values.
We embed such an object as an association list `List (String × V)` whose
entries are the object's own properties in insertion order; property read
is `getField`. `Object.assign (\x7b\x7d, state, \x7b[key]: value\x7d)` is
`objAssignFields`: a shallow copy in which an existing `key` keeps its
position with its value replaced, and a missing `key` is appended.

Object identity matters for some of the spec's statements (Object.freeze
returns the same object; every set allocates a fresh state object), so
snapshots live in an explicit heap of objects indexed by allocation order,
each object carrying its fields and its frozen flag.
-/

namespace Undux

variable {V : Type}

/-- Property read `state[key]`: first entry with the given key, `none` when
the property is absent (JavaScript undefined). -/
def getField : List (String × V) → String → Option V
  | [], _ => none
  | (k, v) :: rest, j => if k = j then some v else getField rest j

/-- Shallow copy with one property replaced, as produced by
`Object.assign (\x7b\x7d, fs, \x7b[k]: v\x7d)`: an existing key keeps its
position with the new value, a missing key is appended. -/
def objAssignFields (fs : List (String × V)) (k : String) (v : V) : List (String × V) :=
  if fs.any (fun p => p.1 = k) then
    fs.map (fun p => (p.1, if p.1 = k then v else p.2))
  else fs ++ [(k, v)]


/-! ## A heap of JavaScript objects

Snapshots hold references to state objects. `Object.freeze` mutates its
argument in place and returns the same reference, and every `set` call
allocates a fresh state object, so these operations are modelled on an
explicit heap: object identifiers are allocation indices. -/

/-- One JavaScript object: its own properties plus its frozen flag. -/
structure Obj (V : Type) where
  fields : List (String × V)
  frozen : Bool

/-- The heap: objects indexed by allocation order. -/
structure Heap (V : Type) where
  objs : List (Obj V)

/-- Dereference an object id (a dangling id yields an empty object; the
store never creates dangling ids). -/
def Heap.obj (h : Heap V) (i : Nat) : Obj V :=
  h.objs.getD i ⟨[], false⟩

/-- Allocate a fresh object, returning its id. -/
def Heap.alloc (h : Heap V) (o : Obj V) : Heap V × Nat :=
  (⟨h.objs ++ [o]⟩, h.objs.length)

/-- The in-place mutation performed by `Object.freeze(o)`: sets the frozen
flag of the object, keeping its fields. -/
def Heap.freeze (h : Heap V) (i : Nat) : Heap V :=
  ⟨h.objs.set i { h.obj i with frozen := true }⟩

/-- JavaScript property assignment `o[k] = v` in non-strict mode: silently
a no-op when the object is frozen, otherwise updates the property. -/
def Heap.assignProp (h : Heap V) (i : Nat) (k : String) (v : V) : Heap V :=
  if (h.obj i).frozen then h
  else ⟨h.objs.set i ⟨objAssignFields (h.obj i).fields k v, (h.obj i).frozen⟩⟩


/-! ## StoreSnapshot and StoreDefinition

`StoreSnapshot` keeps a reference to its state object and a back-reference
to the owning `StoreDefinition`; here a snapshot is its state-object id,
interpreted against the owner's heap. -/

/-- StoreSnapshot.get: `return this.state[key]`. -/
def snapGet (h : Heap V) (sid : Nat) (k : String) : Option V :=
  getField (h.obj sid).fields k

/-- StoreSnapshot.getState: `return Object.freeze(this.state)` — freezes
the snapshot's own state object in place and returns that same object
(the same reference, not a copy). -/
def snapGetState (h : Heap V) (sid : Nat) : Heap V × Nat :=
  (h.freeze sid, sid)

/-- Modelled from the spec: spec.md 4.2 says getState returns a
"frozen shallow copy" of the underlying state map. A copy would be a
freshly allocated frozen object with the same own properties. This
definition exists only to contrast with `snapGetState`, which is what the
source does. -/
def snapGetStateCopy (h : Heap V) (sid : Nat) : Heap V × Nat :=
  h.alloc ⟨(h.obj sid).fields, true⟩

/-- Identifies one emitter stream: the emitter instance and the topic
(`none` is the all-topics stream returned by `all()`). -/
structure StreamRef where
  emitter : Nat
  topic : Option String
deriving DecidableEq

/-- StoreDefinition: the current snapshot's state-object id in the heap,
the setter table cached at construction (each cached closure is determined
by the field name it captured, so it is represented by that name), and the
identities of the two emitter instances created in the constructor. -/
structure SD (V : Type) where
  heap : Heap V
  snapId : Nat
  setters : List (String × String)
  emitterId : Nat
  allsId : Nat

/-- createStore / the StoreDefinition constructor: the initial state object
becomes snapshot state, and mapValues builds the setter table once — one
closure per field of the initial state. (mapValues lives in src/utils,
which is not under src/; spec.md 9 describes it as a table with one entry
per field identifier built during construction.) -/
def mkStore (init : List (String × V)) : SD V :=
  { heap := ⟨[⟨init, false⟩]⟩
    snapId := 0
    setters := init.map (fun p => (p.1, p.1))
    emitterId := 0
    allsId := 1 }

/-- One observable step of a setter invocation, in execution order. -/
inductive Step (V : Type) where
  | replaceSnapshot (newSnapId : Nat)
  | emitPerField (key : String) (value : V)
  | emitAll (key : String) (previousValue : Option V) (value : V)

def Step.isPerFieldEmit : Step V → Bool
  | .emitPerField _ _ => true
  | _ => false

def Step.isAllEmit : Step V → Bool
  | .emitAll _ _ _ => true
  | _ => false

/-- The cached setter body (src lines 130–138): read previousValue from
the current snapshot, build the new state object
`Object.assign(\x7b\x7d, this.storeSnapshot.getState(), \x7b[key]: value\x7d)`
(getState freezes the old state object in place; Object.assign allocates a
fresh unfrozen object), swap the snapshot pointer, then emit on the
per-field channel and then on the all-fields channel. The returned trace
records the swap and the two emissions in execution order. -/
def setterRun (sd : SD V) (k : String) (v : V) : SD V × List (Step V) :=
  let previousValue := snapGet sd.heap sd.snapId k
  let frozen := snapGetState sd.heap sd.snapId
  let alloc := frozen.fst.alloc
    ⟨objAssignFields (frozen.fst.obj frozen.snd).fields k v, false⟩
  ({ sd with heap := alloc.fst, snapId := alloc.snd },
   [Step.replaceSnapshot alloc.snd,
    Step.emitPerField k v,
    Step.emitAll k previousValue v])

/-- StoreDefinition.get: reads from the current snapshot. -/
def sdGet (sd : SD V) (k : String) : Option V :=
  snapGet sd.heap sd.snapId k

/-- StoreDefinition.set: `return this.setters[key]` — a pure lookup in the
table cached at construction. -/
def sdSet (sd : SD V) (k : String) : Option String :=
  getField sd.setters k

/-- StoreDefinition.on: `return this.emitter.on(key)` — the per-field
emitter instance's stream for that topic. -/
def sdOn (sd : SD V) (k : String) : StreamRef :=
  ⟨sd.emitterId, some k⟩

/-- StoreDefinition.onAll: `return this.alls.all()`. -/
def sdOnAll (sd : SD V) : StreamRef :=
  ⟨sd.allsId, none⟩

/-- StoreSnapshot.set delegates to the owner: `this.storeDefinition.set(key)`. -/
def snapSet (owner : SD V) (k : String) : Option String :=
  sdSet owner k

/-- StoreSnapshot.on delegates to the owner. -/
def snapOn (owner : SD V) (k : String) : StreamRef :=
  sdOn owner k

/-- StoreSnapshot.onAll delegates to the owner. -/
def snapOnAll (owner : SD V) : StreamRef :=
  sdOnAll owner

/-! ## StoreSnapshotWrapper -/

/-- The access-recording callback invocations one wrapper operation makes:
the arguments of its onGetOrSet calls in order, and how many times it
called onGetAll. -/
structure Recorded where
  getOrSet : List String
  getAll : Nat
deriving DecidableEq

/-- StoreSnapshotWrapper: the held snapshot's state-object id, the owning
StoreDefinition (the held snapshot's storeDefinition back-reference, which
is also the live store), the subscribedFields record (`none` embeds JS
null) and the isSubscribedToAllFields flag. -/
structure Wrapper (V : Type) where
  heldSnapId : Nat
  owner : SD V
  subscribedFields : Option (List String)
  isSubscribedToAllFields : Bool

/-- StoreSnapshotWrapper.get:
if `!this.isSubscribedToAllFields && (this.subscribedFields && !(key in
this.subscribedFields))` then call onGetOrSet(key) and return the live
value `this.snapshot['storeDefinition'].get(key)`, else return the held
snapshot's value. JS truthiness: a null subscribedFields makes the
conjunction falsy. -/
def wrapGet (w : Wrapper V) (k : String) : Option V × Recorded :=
  if (!w.isSubscribedToAllFields) &&
      (match w.subscribedFields with
       | some fs => !(fs.contains k)
       | none => false) then
    (sdGet w.owner k, ⟨[k], 0⟩)
  else
    (snapGet w.owner.heap w.heldSnapId k, ⟨[], 0⟩)

/-- StoreSnapshotWrapper.set: `this.onGetOrSet(key); return this.snapshot.set(key)`. -/
def wrapSet (w : Wrapper V) (k : String) : Option String × Recorded :=
  (snapSet w.owner k, ⟨[k], 0⟩)

/-- StoreSnapshotWrapper.on: `return this.snapshot.on(key)` — no recording. -/
def wrapOn (w : Wrapper V) (k : String) : StreamRef × Recorded :=
  (snapOn w.owner k, ⟨[], 0⟩)

/-- StoreSnapshotWrapper.onAll: `return this.snapshot.onAll()` — no recording. -/
def wrapOnAll (w : Wrapper V) : StreamRef × Recorded :=
  (snapOnAll w.owner, ⟨[], 0⟩)

/-! ## Synchronous emission with cycle detection

The Emitter comes from the typed-rx-emitter dependency, which is not under
src/. Modelled from the spec: spec.md 4.1 — each emitter maintains a
call-chain stack of the topics currently being emitted on the synchronous
call stack; if emit(topic) is invoked while topic is already in the active
chain, it reports the full offending chain through onCycle and aborts that
emission instead of recursing; otherwise it delivers the value to the
topic's subscribers synchronously, in subscription order, with the topic
pushed on the chain for the extent of the delivery. src lines 112–123 wire
onCycle to a console.error diagnostic naming the chain. The store has two
independent emitter instances (per-field and all-fields), each with its
own chain. Subscriber handlers are embedded as actions; the only action a
handler can take that re-enters the core is calling a setter. -/

/-- A subscriber handler action: synchronously invoke the setter for a
field with a value. -/
inductive Act (V : Type) where
  | setAct (key : String) (value : V)

/-- The store core together with its subscribers: the current state
object's fields, the per-field emitter's subscribers by topic, and the
all-fields emitter's subscribers. -/
structure Sys (V : Type) where
  state : List (String × V)
  fieldSubs : String → List (Act V)
  allSubs : List (Act V)

/-- What the run of a setter logs, in order: a delivery of a value on the
per-field channel, a delivery of a change event on the all-fields channel,
or an onCycle diagnostic naming the full offending chain. -/
inductive LogEntry (V : Type) where
  | deliverField (key : String) (value : V)
  | deliverAll (key : String) (previousValue : Option V) (value : V)
  | cycleField (chain : List String)
  | cycleAll (chain : List String)

/-- Run a setter invocation `set(k)(v)`: update the state, then emit on
the per-field emitter (chain `fchain`), then on the all-fields emitter
(chain `achain`), running subscriber handlers synchronously; a handler's
nested set re-enters with the emitting topic pushed on the corresponding
chain. Fuel bounds the recursion depth; `none` means the fuel ran out
before the call chain bottomed out. -/
def setCallF : Nat → Sys V → List String → List String → String → V →
    Option (Sys V × List (LogEntry V))
  | 0, _, _, _, _, _ => none
  | fuel+1, sys, fchain, achain, k, v =>
    let previousValue := getField sys.state k
    let sys1 : Sys V := { sys with state := objAssignFields sys.state k v }
    let afterField : Option (Sys V × List (LogEntry V)) :=
      if fchain.contains k then
        some (sys1, [LogEntry.cycleField (fchain ++ [k])])
      else
        (sys1.fieldSubs k).foldl
          (fun acc act =>
            match acc, act with
            | some (s, log), Act.setAct k2 v2 =>
              match setCallF fuel s (fchain ++ [k]) achain k2 v2 with
              | some (s2, log2) => some (s2, log ++ log2)
              | none => none
            | none, _ => none)
          (some (sys1, [LogEntry.deliverField k v]))
    match afterField with
    | none => none
    | some (sys2, log2) =>
      if achain.contains k then
        some (sys2, log2 ++ [LogEntry.cycleAll (achain ++ [k])])
      else
        sys2.allSubs.foldl
          (fun acc act =>
            match acc, act with
            | some (s, log), Act.setAct k2 v2 =>
              match setCallF fuel s fchain (achain ++ [k]) k2 v2 with
              | some (s2, log3) => some (s2, log ++ log3)
              | none => none
            | none, _ => none)
          (some (sys2, log2 ++ [LogEntry.deliverAll k previousValue v]))

/-- Apply a sequence of setter invocations, left to right. -/
def applySets (sd : SD V) : List (String × V) → SD V
  | [] => sd
  | (k, v) :: rest => applySets (setterRun sd k v).fst rest

/-! ## Concrete instances used by the witnesses -/

def keyCount : String := "count"

def keyName : String := "name"

/-- The store of spec.md 8: initial state with count 0 and a second field. -/
def sdEx : SD Int := mkStore [(keyCount, 0), (keyName, 7)]

/-- A one-object heap holding the state of a freshly created store. -/
def hC5 : Heap Int := ⟨[⟨[(keyCount, 0)], false⟩]⟩

/-- A wrapper built over the pre-set snapshot (id 0) of a store that has
since advanced by one set, subscribed to the other field only. -/
def wEx : Wrapper Int :=
  ⟨0, (setterRun sdEx keyCount 5).fst, some [keyName], false⟩

/-- A wrapper over a store that has advanced by one set. -/
def wEx8 : Wrapper Int :=
  ⟨0, applySets (mkStore [(keyCount, (0 : Int)), (keyName, 7)]) [(keyCount, 5)],
   none, false⟩


/-! ## Theorems -/

theorem getField_nil (j : String) : getField ([] : List (String × V)) j = none := rfl

theorem getField_isSome_iff_any (fs : List (String × V)) (k : String) :
    (getField fs k).isSome = fs.any (fun p => p.1 = k) := by
  induction fs with
  | nil => rfl
  | cons p rest ih =>
    obtain ⟨a, b⟩ := p
    by_cases h : a = k <;> simp [getField, h, ih]

theorem getField_append_of_none {fs : List (String × V)} {j : String}
    (h : getField fs j = none) (gs : List (String × V)) :
    getField (fs ++ gs) j = getField gs j := by
  induction fs with
  | nil => rfl
  | cons p rest ih =>
    obtain ⟨a, b⟩ := p
    by_cases hk : a = j
    · simp [getField, hk] at h
    · simp [getField, hk] at h ⊢
      exact ih h

theorem getField_append_single_ne {j k : String} (hne : j ≠ k)
    (fs : List (String × V)) (v : V) :
    getField (fs ++ [(k, v)]) j = getField fs j := by
  induction fs with
  | nil => simp [getField, Ne.symm hne]
  | cons p rest ih =>
    obtain ⟨a, b⟩ := p
    by_cases hk : a = j <;> simp [getField, hk, ih]

theorem getField_map_replace_self {fs : List (String × V)} {k : String}
    (h : (getField fs k).isSome = true) (v : V) :
    getField (fs.map (fun p => (p.1, if p.1 = k then v else p.2))) k = some v := by
  induction fs with
  | nil => simp [getField] at h
  | cons p rest ih =>
    obtain ⟨a, b⟩ := p
    by_cases hk : a = k
    · simp [getField, hk]
    · simp [getField, hk] at h ⊢
      exact ih h

theorem getField_map_replace_ne {j k : String} (hne : j ≠ k)
    (fs : List (String × V)) (v : V) :
    getField (fs.map (fun p => (p.1, if p.1 = k then v else p.2))) j = getField fs j := by
  induction fs with
  | nil => rfl
  | cons p rest ih =>
    obtain ⟨a, b⟩ := p
    by_cases hk : a = k
    · subst hk
      simp [getField, Ne.symm hne, ih]
    · by_cases hj : a = j <;> simp [getField, hk, hj, ih, hne]

/-- Reading back the field just written by the shallow copy-with-replace. -/
theorem getField_objAssignFields_self (fs : List (String × V)) (k : String) (v : V) :
    getField (objAssignFields fs k v) k = some v := by
  unfold objAssignFields
  by_cases h : fs.any (fun p => p.1 = k)
  · rw [if_pos h]
    exact getField_map_replace_self (by rw [getField_isSome_iff_any, h]) v
  · rw [if_neg h]
    have hnone : getField fs k = none := by
      have := getField_isSome_iff_any fs k
      rw [Bool.eq_false_iff.mpr h] at this
      exact Option.eq_none_of_isNone (by simpa [Option.isNone_iff_eq_none] using
        (Option.not_isSome_iff_eq_none.mp (by simp [this])))
    rw [getField_append_of_none hnone]
    simp [getField]

/-- The shallow copy-with-replace leaves every other field unchanged. -/
theorem getField_objAssignFields_ne {j k : String} (hne : j ≠ k)
    (fs : List (String × V)) (v : V) :
    getField (objAssignFields fs k v) j = getField fs j := by
  unfold objAssignFields
  by_cases h : fs.any (fun p => p.1 = k)
  · rw [if_pos h]
    exact getField_map_replace_ne hne fs v
  · rw [if_neg h]
    exact getField_append_single_ne hne fs v

theorem Heap.length_freeze (h : Heap V) (i : Nat) :
    (h.freeze i).objs.length = h.objs.length := by
  simp [Heap.freeze]

/-- Freezing changes no fields of any object. -/
theorem Heap.fields_obj_freeze (h : Heap V) (i j : Nat) :
    ((h.freeze i).obj j).fields = (h.obj j).fields := by
  unfold Heap.freeze Heap.obj
  by_cases hij : i = j
  · subst hij
    by_cases hlen : i < h.objs.length
    · simp [List.getD, List.getElem?_set_eq_of_lt _ hlen, Heap.obj, List.getD]
    · rw [List.set_eq_of_length_le (Nat.le_of_not_lt hlen)]
  · simp [List.getD, List.getElem?_set_ne hij]

theorem Heap.obj_freeze_self (h : Heap V) (i : Nat) (hi : i < h.objs.length) :
    ((h.freeze i).obj i).frozen = true := by
  unfold Heap.freeze Heap.obj
  simp [List.getD, List.getElem?_set_eq_of_lt _ hi]

/-- Allocation leaves every existing object unchanged. -/
theorem Heap.obj_alloc_old (h : Heap V) (o : Obj V) (j : Nat)
    (hj : j < h.objs.length) :
    ((h.alloc o).fst.obj j) = h.obj j := by
  unfold Heap.alloc Heap.obj
  simp [List.getD, List.getElem?_append, hj]

/-- The freshly allocated object is stored at the returned id. -/
theorem Heap.obj_alloc_new (h : Heap V) (o : Obj V) :
    ((h.alloc o).fst.obj (h.alloc o).snd) = o := by
  unfold Heap.alloc Heap.obj
  simp [List.getD]

/-! ## Claim C1 -/

/-- C1: for every field k and value v, after invoking the setter returned
by set(k) with v, get(k) on the store returns v; and any StoreSnapshot
captured before the call (any state object already in the heap, in
particular the previous current snapshot) still returns its old value of k
when queried via its get(k). -/
theorem set_then_get_and_old_snapshots_keep_values (sd : SD V) (k : String) (v : V) :
    sdGet (setterRun sd k v).fst k = some v ∧
    ∀ idx, idx < sd.heap.objs.length →
      snapGet (setterRun sd k v).fst.heap idx k = snapGet sd.heap idx k := by
  constructor
  · simp only [setterRun, sdGet, snapGet, snapGetState]
    rw [Heap.obj_alloc_new]
    exact getField_objAssignFields_self _ k v
  · intro idx hidx
    simp only [setterRun, sdGet, snapGet, snapGetState]
    rw [Heap.obj_alloc_old]
    · rw [Heap.fields_obj_freeze]
    · rw [Heap.length_freeze]
      exact hidx

/-- C1 witness: on the concrete store with count 0, setting count to 5
makes get(count) return 5, while the old snapshot object (id 0) still
holds 0. -/
theorem set_then_get_and_old_snapshots_keep_values_witness :
    sdGet (setterRun sdEx keyCount 5).fst keyCount = some 5 ∧
    snapGet (setterRun sdEx keyCount 5).fst.heap 0 keyCount =
      snapGet sdEx.heap 0 keyCount ∧
    snapGet sdEx.heap 0 keyCount = some 0 :=
  ⟨(set_then_get_and_old_snapshots_keep_values sdEx keyCount 5).1,
   (set_then_get_and_old_snapshots_keep_values sdEx keyCount 5).2 0 (by decide),
   by decide⟩

/-! ## Claim C2 -/

/-- C2: every setter invocation first replaces the current snapshot with a
new fully-built StoreSnapshot (the trace's first step is the pointer swap
to the new state object), and only then emits: first the new value on the
per-field channel, then the change event on the all-fields channel with
previousValue the value of k before the replacement. The state current
during both emissions is the fully updated one (k maps to v and every
other field is unchanged), so no observer sees a half-updated state. -/
theorem set_replaces_snapshot_before_emitting (sd : SD V) (k : String) (v : V) :
    (setterRun sd k v).snd =
      [Step.replaceSnapshot (setterRun sd k v).fst.snapId,
       Step.emitPerField k v,
       Step.emitAll k (sdGet sd k) v] ∧
    sdGet (setterRun sd k v).fst k = some v ∧
    ∀ j, j ≠ k → sdGet (setterRun sd k v).fst j = sdGet sd j := by
  refine ⟨rfl, (set_then_get_and_old_snapshots_keep_values sd k v).1, ?_⟩
  intro j hj
  simp only [setterRun, sdGet, snapGet, snapGetState]
  rw [Heap.obj_alloc_new, getField_objAssignFields_ne hj, Heap.fields_obj_freeze]

/-- C2 witness: the concrete trace for set(count)(1) on the scenario store,
with previousValue 0 and the other field untouched during the emissions. -/
theorem set_replaces_snapshot_before_emitting_witness :
    (setterRun sdEx keyCount 1).snd =
      [Step.replaceSnapshot (setterRun sdEx keyCount 1).fst.snapId,
       Step.emitPerField keyCount 1,
       Step.emitAll keyCount (sdGet sdEx keyCount) 1] ∧
    sdGet (setterRun sdEx keyCount 1).fst keyName = sdGet sdEx keyName ∧
    sdGet sdEx keyCount = some 0 :=
  ⟨(set_replaces_snapshot_before_emitting sdEx keyCount 1).1,
   (set_replaces_snapshot_before_emitting sdEx keyCount 1).2.2 keyName (by decide),
   by decide⟩

/-! ## Claim C3 -/

/-- C3: invoking the setter for k with v leaves get(j) unchanged for every
other field j — the new state is a shallow copy of the current state with
only k replaced by v. -/
theorem set_leaves_other_fields_unchanged (sd : SD V) (k : String) (v : V)
    (j : String) (hne : j ≠ k) :
    sdGet (setterRun sd k v).fst j = sdGet sd j ∧
    sdGet (setterRun sd k v).fst k = some v :=
  ⟨(set_replaces_snapshot_before_emitting sd k v).2.2 j hne,
   (set_then_get_and_old_snapshots_keep_values sd k v).1⟩

/-- C3 witness: the spec.md 8 scenario — initial state count 0, name 7;
after set(count)(1), get(count) is 1 and get(name) is unchanged (7). -/
theorem set_leaves_other_fields_unchanged_witness :
    (sdGet (setterRun sdEx keyCount 1).fst keyName = sdGet sdEx keyName ∧
     sdGet (setterRun sdEx keyCount 1).fst keyCount = some 1) ∧
    sdGet sdEx keyName = some 7 :=
  ⟨set_leaves_other_fields_unchanged sdEx keyCount 1 keyName (by decide),
   by decide⟩

/-! ## Claim C6 -/

/-- C6: for every value v — the statement quantifies over all v, in
particular a v equal to the current value of k — the setter for k
unconditionally replaces the current snapshot with a freshly allocated
snapshot object (its id differs from the current one) and emits exactly
one event on the per-field channel and exactly one on the all-fields
channel; no equality check suppresses the update. -/
theorem set_unconditionally_replaces_and_emits (sd : SD V) (k : String) (v : V)
    (hvalid : sd.snapId < sd.heap.objs.length) :
    (setterRun sd k v).fst.snapId ≠ sd.snapId ∧
    ((setterRun sd k v).snd.filter Step.isPerFieldEmit).length = 1 ∧
    ((setterRun sd k v).snd.filter Step.isAllEmit).length = 1 := by
  refine ⟨?_, rfl, rfl⟩
  simp only [setterRun, snapGetState, Heap.alloc, Heap.length_freeze]
  exact Nat.ne_of_gt hvalid

/-- C6 witness: setting count to 0 — its current value — still allocates a
new snapshot object and emits one per-field and one all-fields event. -/
theorem set_unconditionally_replaces_and_emits_witness :
    sdGet sdEx keyCount = some 0 ∧
    ((setterRun sdEx keyCount 0).fst.snapId ≠ sdEx.snapId ∧
     ((setterRun sdEx keyCount 0).snd.filter Step.isPerFieldEmit).length = 1 ∧
     ((setterRun sdEx keyCount 0).snd.filter Step.isAllEmit).length = 1) :=
  ⟨by decide, set_unconditionally_replaces_and_emits sdEx keyCount 0 (by decide)⟩

/-! ## Claim C4 -/

/-- C4: for a wrapper not subscribed to all fields whose subscribed-field
record exists and does not contain k, get(k) invokes the access-recording
callback exactly once, with k, and returns the value fetched from the live
StoreDefinition's current state — not from the wrapper's held snapshot. -/
theorem wrapper_first_read_records_once_and_refetches_live
    (w : Wrapper V) (k : String) (fs : List String)
    (hall : w.isSubscribedToAllFields = false)
    (hfs : w.subscribedFields = some fs)
    (hk : fs.contains k = false) :
    wrapGet w k = (sdGet w.owner k, ⟨[k], 0⟩) := by
  have hk2 : k ∉ fs := by simpa using hk
  simp [wrapGet, hall, hfs, hk2]

/-- C4 witness: the wrapper holds the pre-set snapshot (count 0) of a
store whose current state has count 5; its first get(count) records one
access and returns the fresh value 5, not the held 0. -/
theorem wrapper_first_read_records_once_and_refetches_live_witness :
    wrapGet wEx keyCount = (sdGet wEx.owner keyCount, ⟨[keyCount], 0⟩) ∧
    sdGet wEx.owner keyCount = some 5 ∧
    snapGet wEx.owner.heap wEx.heldSnapId keyCount = some 0 :=
  ⟨wrapper_first_read_records_once_and_refetches_live wEx keyCount [keyName]
      rfl rfl (by decide),
   by decide, by decide⟩

/-! ## Claim C5 -/

/-- C5 counterexample: on a freshly created one-field store, getState does
not return a shallow copy of the underlying state map — it returns the
underlying state object itself (the id it returns is the snapshot's own
state-object id 0, and the heap has gained no object), whereas the
spec-modelled copy variant returns a fresh object with a different id. -/
theorem getState_returns_underlying_object_not_a_copy :
    (snapGetState hC5 0).snd = 0 ∧
    (snapGetState hC5 0).fst.objs.length = hC5.objs.length ∧
    (snapGetStateCopy hC5 0).snd ≠ 0 := by
  refine ⟨rfl, rfl, by decide⟩

/-- C5 amended: getState() freezes the underlying state object in place
(freezing applied to the object itself, not deeply) and returns that very
object rather than a copy; attempting to assign a property of the returned
object has no effect on the values returned by subsequent get calls. -/
theorem getState_freezes_in_place_and_assignment_is_noop (h : Heap V)
    (sid : Nat) (hs : sid < h.objs.length) (k : String) (v : V) :
    (snapGetState h sid).snd = sid ∧
    ((snapGetState h sid).fst.obj sid).frozen = true ∧
    ∀ j, snapGet ((snapGetState h sid).fst.assignProp sid k v) sid j =
      snapGet h sid j := by
  refine ⟨rfl, Heap.obj_freeze_self h sid hs, ?_⟩
  intro j
  simp only [snapGetState, Heap.assignProp, Heap.obj_freeze_self h sid hs,
    if_pos, snapGet, Heap.fields_obj_freeze]

/-- C5 witness: on the concrete one-field heap, getState returns object 0
frozen, and assigning count on the returned object leaves the value that
get(count) returns unchanged. -/
theorem getState_freezes_in_place_and_assignment_is_noop_witness :
    (snapGetState hC5 0).snd = 0 ∧
    ((snapGetState hC5 0).fst.obj 0).frozen = true ∧
    snapGet ((snapGetState hC5 0).fst.assignProp 0 keyCount 99) 0 keyCount =
      snapGet hC5 0 keyCount :=
  ⟨(getState_freezes_in_place_and_assignment_is_noop hC5 0 (by decide) keyCount 99).1,
   (getState_freezes_in_place_and_assignment_is_noop hC5 0 (by decide) keyCount 99).2.1,
   (getState_freezes_in_place_and_assignment_is_noop hC5 0 (by decide) keyCount 99).2.2 keyCount⟩

/-! ## Claim C9 -/

/-- C9: on(k) and onAll() on a wrapper return exactly the owning
StoreDefinition's emitter stream for the respective channel and never
invoke the access-recording callbacks — no onGetOrSet call and no onGetAll
call is made, so the wrapper's recorded access state is unchanged. -/
theorem wrapper_on_and_onAll_pass_through_without_recording
    (w : Wrapper V) (k : String) :
    wrapOn w k = (sdOn w.owner k, ⟨[], 0⟩) ∧
    wrapOnAll w = (sdOnAll w.owner, ⟨[], 0⟩) :=
  ⟨rfl, rfl⟩

/-! ## Claim C10 -/

/-- C10: a wrapper constructed with a null subscribedFields record and not
subscribed to all fields skips the first-read recording and re-fetch path
entirely: get(k) returns the value from the held (possibly stale) snapshot
and invokes no access-recording callback, even though k was never recorded
as accessed. -/
theorem wrapper_null_subscribed_fields_skips_recording
    (sd : SD V) (hid : Nat) (k : String) :
    wrapGet ⟨hid, sd, none, false⟩ k = (snapGet sd.heap hid k, ⟨[], 0⟩) :=
  rfl

/-! ## Claim C7 -/

/-- C7: when the single subscriber to field a synchronously re-invokes the
setter for a while a's change is being emitted, the system does not
recurse unboundedly: with any fuel of at least 2 the run completes (the
cycle is detected on the first re-entry), exactly one onCycle diagnostic
naming the full offending chain a -> a is logged, the re-entrant per-field
emission is dropped (it delivers nothing — the only per-field delivery is
the outer one), and no exception propagates: the run returns a result, in
which the re-entrant set's state update has still been applied. -/
theorem cyclic_set_detected_logged_and_dropped (s : List (String × V))
    (a : String) (v w : V) (f : Nat) :
    setCallF (f + 2)
      ⟨s, (fun k => if k = a then [Act.setAct a w] else []), []⟩ [] [] a v =
      some (⟨objAssignFields (objAssignFields s a v) a w,
             (fun k => if k = a then [Act.setAct a w] else []), []⟩,
            [LogEntry.deliverField a v,
             LogEntry.cycleField [a, a],
             LogEntry.deliverAll a (some v) w,
             LogEntry.deliverAll a (getField s a) v]) := by
  simp [setCallF, getField_objAssignFields_self]

/-! ## Claim C8 -/

theorem setterRun_preserves_setters (sd : SD V) (k : String) (v : V) :
    (setterRun sd k v).fst.setters = sd.setters := rfl

theorem applySets_preserves_setters (ops : List (String × V)) (sd : SD V) :
    (applySets sd ops).setters = sd.setters := by
  induction ops generalizing sd with
  | nil => rfl
  | cons p rest ih =>
    obtain ⟨k, v⟩ := p
    simpa [applySets] using ih (setterRun sd k v).fst

theorem setters_filter_nil_of_not_mem {init : List (String × V)} {k : String}
    (h : k ∉ init.map Prod.fst) :
    (init.map (fun p => (p.1, p.1))).filter (fun p => p.1 == k) = [] := by
  induction init with
  | nil => rfl
  | cons p rest ih =>
    obtain ⟨a, b⟩ := p
    simp only [List.map_cons, List.mem_cons] at h
    push_neg at h
    simp only [List.map_cons, List.filter_cons]
    rw [if_neg (by simpa using Ne.symm h.1)]
    exact ih h.2

/-- With distinct field names, the construction-time setter table has
exactly one entry for a field of the initial state. -/
theorem setters_exactly_one_entry {init : List (String × V)} {k : String}
    (hnodup : (init.map Prod.fst).Nodup) (hmem : k ∈ init.map Prod.fst) :
    (((mkStore init).setters).filter (fun p => p.1 == k)).length = 1 := by
  simp only [mkStore]
  induction init with
  | nil => simp at hmem
  | cons p rest ih =>
    obtain ⟨a, b⟩ := p
    simp only [List.map_cons, List.nodup_cons] at hnodup
    simp only [List.map_cons, List.mem_cons] at hmem
    simp only [List.map_cons, List.filter_cons]
    by_cases hak : a = k
    · subst hak
      rw [if_pos (by simp)]
      rw [setters_filter_nil_of_not_mem hnodup.1]
      rfl
    · rw [if_neg (by simpa using hak)]
      exact ih hnodup.2 (hmem.resolve_left (fun h => hak h.symm))

/-- C8: the setter table is built once at store construction with exactly
one single-argument update closure per field (each cached closure is
represented by the field name it captured); after any sequence of setter
invocations the table is unchanged, and set(k) through StoreDefinition,
StoreSnapshot and StoreSnapshotWrapper all return that identical
construction-time table entry. -/
theorem setter_closures_cached_once_and_identical
    (init : List (String × V)) (ops : List (String × V)) (k : String)
    (wr : Wrapper V) (hwr : wr.owner = applySets (mkStore init) ops)
    (hnodup : (init.map Prod.fst).Nodup) (hmem : k ∈ init.map Prod.fst) :
    sdSet (applySets (mkStore init) ops) k = getField (mkStore init).setters k ∧
    snapSet (applySets (mkStore init) ops) k = getField (mkStore init).setters k ∧
    (wrapSet wr k).fst = getField (mkStore init).setters k ∧
    (((mkStore init).setters).filter (fun p => p.1 == k)).length = 1 := by
  have htable : sdSet (applySets (mkStore init) ops) k =
      getField (mkStore init).setters k := by
    rw [sdSet, applySets_preserves_setters]
  exact ⟨htable, htable, by rw [wrapSet, hwr]; exact htable,
    setters_exactly_one_entry hnodup hmem⟩

/-- C8 witness: on the concrete two-field store advanced by one set, all
three routes return the construction-time cached setter for count, and the
table has exactly one entry for count. -/
theorem setter_closures_cached_once_and_identical_witness :
    sdSet (applySets (mkStore [(keyCount, (0 : Int)), (keyName, 7)])
        [(keyCount, 5)]) keyCount =
      getField (mkStore [(keyCount, (0 : Int)), (keyName, 7)]).setters keyCount ∧
    snapSet (applySets (mkStore [(keyCount, (0 : Int)), (keyName, 7)])
        [(keyCount, 5)]) keyCount =
      getField (mkStore [(keyCount, (0 : Int)), (keyName, 7)]).setters keyCount ∧
    (wrapSet wEx8 keyCount).fst =
      getField (mkStore [(keyCount, (0 : Int)), (keyName, 7)]).setters keyCount ∧
    (((mkStore [(keyCount, (0 : Int)), (keyName, 7)]).setters).filter
        (fun p => p.1 == keyCount)).length = 1 :=
  setter_closures_cached_once_and_identical
    [(keyCount, (0 : Int)), (keyName, 7)] [(keyCount, 5)] keyCount wEx8
    rfl (by decide) (by decide)

end Undux
